import Mathlib

/-!
Verification development for the Skofie course-catalog application
(React frontend plus a thin REST backend over a document store).

The frontend pages (`CoursesPage.js`, `HomePage.js`, `DashboardPage.js`,
`AuthPage.js`, `CourseDetailPage.js`) are embedded directly from their
JavaScript source.  The backend (`backend/server.py`) is not part of the
source tree available here, so the server-side operations (register,
login, session resolution, purchase, dashboard aggregation) are modelled
from the specification, as noted on each such definition.
-/

/-- A course record, as delivered by `GET /api/courses` and consumed by the
frontend pages (fields per the data model: id, category, title, description,
level, price, mentor_name, duration, topics, enrolled_count). -/
structure Course where
  id : String
  category : String
  title : String
  description : String
  level : String
  price : Nat
  mentor_name : String
  duration : String
  topics : List String
  enrolled_count : Nat
deriving DecidableEq, Repr

/-- A user record (data model: id, email, password hash, full_name, role,
enrolled_courses, badges). -/
structure User where
  id : String
  email : String
  password : String
  full_name : String
  role : String
  enrolled_courses : List String
  badges : List String
deriving DecidableEq, Repr

/-- A payment record (data model: id, user_id, course_id, amount, status,
payment_method, created_at).  Timestamps are modelled as naturals. -/
structure Payment where
  id : String
  user_id : String
  course_id : String
  amount : Nat
  status : String
  payment_method : String
  created_at : Nat
deriving DecidableEq, Repr

/-- Substring test on lists of characters, the semantics of JavaScript
`String.prototype.includes`: scan every suffix of the haystack for the
needle as a prefix. -/
def isSubstrList (n : List Char) : List Char → Bool
  | [] => n.isEmpty
  | a :: t => n.isPrefixOf (a :: t) || isSubstrList n t

/-- JavaScript `s.includes(sub)` on strings, via the character lists. -/
def jsIncludes (s sub : String) : Bool :=
  isSubstrList sub.toList s.toList

/-- `filteredCourses` from `CoursesPage.js` (lines 51-58): keep a course when
the lowercased search query occurs in the lowercased title or description,
the selected category is `all` or equals the course category, and the
selected level is `all` or equals the course level. -/
def filteredCourses (courses : List Course)
    (searchQuery selectedCategory selectedLevel : String) : List Course :=
  courses.filter fun course =>
    (jsIncludes course.title.toLower searchQuery.toLower
      || jsIncludes course.description.toLower searchQuery.toLower)
    && (selectedCategory == "all" || course.category == selectedCategory)
    && (selectedLevel == "all" || course.level == selectedLevel)

/-- `setFeaturedCourses(coursesRes.data.slice(0, 3))` from `HomePage.js`
(line 25): the featured list is the first three courses of the API response. -/
def featuredCoursesOf (courses : List Course) : List Course :=
  courses.take 3

/-- The aggregate progress stat rendered by `DashboardPage` (line 137):
`dashboardData?.enrolled_courses?.length > 0 ? '75%' : '0%'`. -/
def progressDisplay (enrolledLen : Nat) : String :=
  if enrolledLen > 0 then "75%" else "0%"

/-- The per-course progress value rendered by `DashboardPage` (lines 197-202):
the JSX passes the literal `75` to the `Progress` bar for every enrolled
course, ignoring the course record entirely. -/
def enrolledCourseProgress (_course : Course) : Nat :=
  75

/-- The auth form state of `AuthPage.js` (email, password, fullName,
confirmPassword). -/
structure FormData where
  email : String
  password : String
  fullName : String
  confirmPassword : String
deriving DecidableEq, Repr

/-- The observable outcome of `handleSubmit` in `AuthPage.js`: either a
network request (login or register) or a client-side error toast with no
request sent. -/
inductive SubmitAction where
  | loginReq (email password : String)
  | registerReq (email password fullName : String)
  | showError (msg : String)
deriving DecidableEq, Repr

/-- `handleSubmit` from `AuthPage.js` (lines 43-80), reduced to the request
it issues: login mode always sends a login request; register mode first
rejects a password/confirmation mismatch, then a password shorter than 6
characters, and only then sends the register request. -/
def handleSubmit (isLogin : Bool) (fd : FormData) : SubmitAction :=
  if isLogin then
    .loginReq fd.email fd.password
  else if fd.password ≠ fd.confirmPassword then
    .showError "Password dan konfirmasi password tidak sama"
  else if fd.password.length < 6 then
    .showError "Password minimal 6 karakter"
  else
    .registerReq fd.email fd.password fd.fullName

/-- Error kinds of the REST surface (spec section 7): InvalidInput,
Unauthorized, Conflict, NotFound, NotImplemented. -/
inductive PError where
  | InvalidInput
  | Unauthorized
  | Conflict
  | NotFound
  | NotImplemented
deriving DecidableEq, Repr

/-- Modelled from the spec: the server-side store state (`backend/server.py`
is absent from the source tree).  Users, courses, payments and issued
sessions (token paired with user id). -/
structure St where
  users : List User
  courses : List Course
  payments : List Payment
  sessions : List (String × String)
deriving DecidableEq, Repr

/-- Modelled from the spec: look a user up by id in the Account Service. -/
def findUser (st : St) (uid : String) : Option User :=
  st.users.find? fun u => u.id == uid

/-- Modelled from the spec: `getCourse(id)` of the Catalog Store, `none`
when the id is absent (NotFound). -/
def findCourse (st : St) (cid : String) : Option Course :=
  st.courses.find? fun c => c.id == cid

/-- Modelled from the spec: `validateSession(token)` — resolve a bearer
token to its user; `none` for a missing, unknown or dangling token. -/
def resolveSession (st : St) (tok : Option String) : Option User :=
  match tok with
  | none => none
  | some t => (st.sessions.lookup t).bind (findUser st)

/-- Modelled from the spec: passwords are stored as a hash, never plaintext.
The hash function itself is opaque to the spec; an injective tagging stands
in for it. -/
def hashPwd (p : String) : String :=
  "hashed:" ++ p

/-- Modelled from the spec: the spec requires registration to reject a
malformed email but does not define malformedness; a minimal model
(the address contains an `@`) stands in for it. -/
def validEmail (e : String) : Bool :=
  e.toList.contains '@'

/-- Modelled from the spec (section 4.2): `register(email, password,
full_name)` fails with InvalidInput when the password is shorter than 6
characters or the email is malformed (input validation runs first), fails
with Conflict when the email is already registered, and otherwise creates a
user with empty enrolled_courses and badges and issues a session. -/
def register (st : St) (email pwd fullName newUid newTok : String) :
    Except PError (String × String) × St :=
  if pwd.length < 6 || !(validEmail email) then
    (.error .InvalidInput, st)
  else if st.users.any (fun u => u.email == email) then
    (.error .Conflict, st)
  else
    let u : User := ⟨newUid, email, hashPwd pwd, fullName, "user", [], []⟩
    (.ok (newTok, newUid),
      { st with users := st.users ++ [u],
                sessions := st.sessions ++ [(newTok, newUid)] })

/-- Modelled from the spec (section 4.2): `login(email, password)` fails
with Unauthorized unless the credentials match a stored hash, and on
success issues a fresh session token. -/
def login (st : St) (email pwd newTok : String) :
    Except PError (String × String) × St :=
  match st.users.find? (fun u => u.email == email) with
  | none => (.error .Unauthorized, st)
  | some u =>
    if u.password == hashPwd pwd then
      (.ok (newTok, u.id), { st with sessions := st.sessions ++ [(newTok, u.id)] })
    else
      (.error .Unauthorized, st)

/-- Modelled from the spec: append a badge identifier unless already held
(badge sets have unique membership and only grow). -/
def grantBadge (badges : List String) (b : String) : List String :=
  if b ∈ badges then badges else badges ++ [b]

/-- Modelled from the spec (sections 3 and 4.2): badge re-evaluation after a
successful purchase — a completed purchase grants `first_course`, and a
fifth enrolled course grants `finance_master` (the closed badge set of the
dashboard). -/
def badgesAfterPurchase (u : User) : List String :=
  let bs := grantBadge u.badges "first_course"
  if 5 ≤ u.enrolled_courses.length + 1 then grantBadge bs "finance_master" else bs

/-- The confirmation message of a successful purchase (spec 4.3 step 5:
a human-readable confirmation message). -/
def purchaseSuccessMsg : String :=
  "Pembayaran berhasil, selamat belajar!"

/-- Modelled from the spec: the enrolled_count increment of a successful
purchase, applied to the course with the purchased id. -/
def bumpCourse (cid : String) (c2 : Course) : Course :=
  if c2.id == cid then { c2 with enrolled_count := c2.enrolled_count + 1 } else c2

/-- Modelled from the spec: the Account Service side effect of a successful
purchase — extend the purchasing user's enrolled_courses with the course id
and re-evaluate badges; every other user is untouched. -/
def enrollUser (uid cid : String) (u2 : User) : User :=
  if u2.id == uid then
    { u2 with enrolled_courses := u2.enrolled_courses ++ [cid],
              badges := badgesAfterPurchase u2 }
  else u2

/-- Modelled from the spec (section 4.3): `purchase(sessionToken, courseId,
paymentMethod)`.  Step 1 resolves the session (Unauthorized on failure);
step 2 resolves the course (NotFound); step 3 is the idempotence check
(already enrolled: success, no state change); step 4 rejects every
payment method other than `mock_payment` with NotImplemented; step 5
appends a completed Payment, increments the course enrolled_count, and
extends the user's enrolled_courses and badges. -/
def purchase (st : St) (tok : Option String) (courseId paymentMethod : String)
    (newPayId : String) (now : Nat) : Except PError String × St :=
  match resolveSession st tok with
  | none => (.error .Unauthorized, st)
  | some u =>
    match findCourse st courseId with
    | none => (.error .NotFound, st)
    | some c =>
      if courseId ∈ u.enrolled_courses then
        (.ok purchaseSuccessMsg, st)
      else if paymentMethod ≠ "mock_payment" then
        (.error .NotImplemented, st)
      else
        let p : Payment := ⟨newPayId, u.id, courseId, c.price, "completed", paymentMethod, now⟩
        (.ok purchaseSuccessMsg,
          { st with
              payments := st.payments ++ [p],
              courses := st.courses.map (bumpCourse courseId),
              users := st.users.map (enrollUser u.id courseId) })

/-- Descending order on payments by `created_at` (later payments first). -/
def paymentDesc (p q : Payment) : Prop :=
  q.created_at ≤ p.created_at

instance : DecidableRel paymentDesc := fun p q => by
  unfold paymentDesc; infer_instance

instance : IsTotal Payment paymentDesc :=
  ⟨fun p q => (Nat.le_total q.created_at p.created_at).elim Or.inl Or.inr⟩

instance : IsTrans Payment paymentDesc :=
  ⟨fun _ _ _ h1 h2 => Nat.le_trans h2 h1⟩

/-- The dashboard aggregate (spec 4.4): the session user, the full Course
objects for the user's enrolled course ids, and the user's payments in
descending `created_at` order. -/
structure Dashboard where
  user : User
  enrolled_courses : List Course
  payment_history : List Payment
deriving Repr

/-- Modelled from the spec (section 4.4): `getDashboard(sessionToken)` —
pure read composition: resolve the session, join the user's
enrolled_courses ids against the catalog, and list the user's payments
ordered by created_at descending.  The state is returned unchanged. -/
def getDashboard (st : St) (tok : Option String) : Except PError Dashboard × St :=
  match resolveSession st tok with
  | none => (.error .Unauthorized, st)
  | some u =>
    (.ok ⟨u,
          u.enrolled_courses.filterMap (findCourse st),
          List.insertionSort paymentDesc (st.payments.filter (fun p => p.user_id == u.id))⟩,
      st)

/-- The server-side effect of one auth-form submission outcome: an error
toast sends no request and changes nothing; a login or register request is
handled by the corresponding backend operation. -/
def submitEffect (st : St) (a : SubmitAction) (newUid newTok : String) : St :=
  match a with
  | .showError _ => st
  | .loginReq e p => (login st e p newTok).2
  | .registerReq e p n => (register st e p n newUid newTok).2

/-- A payment counts toward a course's enrolled_count when it is completed
and references that course. -/
def completedFor (cid : String) (p : Payment) : Bool :=
  p.status == "completed" && p.course_id == cid

/-- Every course's enrolled_count equals the number of completed payments
referencing it (spec data-model invariant). -/
def countInvariantL (courses : List Course) (payments : List Payment) : Prop :=
  ∀ c ∈ courses, c.enrolled_count = (payments.filter (completedFor c.id)).length

/-- The enrolled_count invariant over a full store state. -/
def countInvariant (st : St) : Prop :=
  countInvariantL st.courses st.payments

/-- Users only grow across a state transition: every pre-state user is
still present with the same id, and its enrolled_courses and badges lists
extend the old ones (nothing is ever removed). -/
def usersGrow (st st2 : St) : Prop :=
  ∀ u2 ∈ st.users, ∃ u3 ∈ st2.users,
    u3.id = u2.id ∧ u2.enrolled_courses <+: u3.enrolled_courses ∧ u2.badges <+: u3.badges

/-- Courses only grow across a state transition: every pre-state course is
still present with the same id and a no-smaller enrolled_count. -/
def coursesGrow (st st2 : St) : Prop :=
  ∀ c2 ∈ st.courses, ∃ c3 ∈ st2.courses,
    c3.id = c2.id ∧ c2.enrolled_count ≤ c3.enrolled_count

/-- The enrolled_count the catalog reports for a course id (0 when absent). -/
def courseEnrolledCount (st : St) (cid : String) : Nat :=
  match findCourse st cid with
  | some c => c.enrolled_count
  | none => 0

/-- A sample catalog course with no enrollments yet. -/
def courseFresh : Course :=
  ⟨"c1", "personal_finance", "Budgeting 101", "Dasar budgeting", "beginner",
    150000, "Rina", "4 jam", ["Budget"], 0⟩

/-- A sample registered user not yet enrolled anywhere. -/
def userFresh : User :=
  ⟨"u1", "a@x.com", hashPwd "secret1", "Alice", "user", [], []⟩

/-- A sample store: one user with a live session, one course, no payments. -/
def stFresh : St :=
  ⟨[userFresh], [courseFresh], [], [("t1", "u1")]⟩

/-- The sample course after one purchase. -/
def courseEnr : Course :=
  { courseFresh with enrolled_count := 1 }

/-- The sample user after purchasing the sample course. -/
def userEnr : User :=
  { userFresh with enrolled_courses := ["c1"], badges := ["first_course"] }

/-- The payment record of that purchase. -/
def payEnr : Payment :=
  ⟨"p1", "u1", "c1", 150000, "completed", "mock_payment", 3⟩

/-- A sample store in which the session user already owns the course. -/
def stEnr : St :=
  ⟨[userEnr], [courseEnr], [payEnr], [("t1", "u1")]⟩

/-- A store with no data at all. -/
def stEmpty : St :=
  ⟨[], [], [], []⟩

/-- An older payment of the sample user. -/
def payA : Payment :=
  ⟨"pA", "u1", "c1", 100, "completed", "mock_payment", 1⟩

/-- A newer payment of the sample user. -/
def payB : Payment :=
  ⟨"pB", "u1", "c2", 200, "completed", "mock_payment", 9⟩

/-- A store whose session user has two payments stored oldest-first. -/
def stDash : St :=
  ⟨[userEnr], [courseEnr], [payA, payB], [("t1", "u1")]⟩

theorem isSubstrList_iff (n : List Char) : ∀ h : List Char, isSubstrList n h = true ↔ n <:+: h := by
  intro h
  induction h with
  | nil =>
    simp [isSubstrList, List.isEmpty_iff]
  | cons a t ih =>
    simp [isSubstrList, List.isPrefixOf_iff_prefix, ih, List.infix_cons_iff]

/-- C6: course-list filtering semantics — a course is in `filteredCourses`
exactly when it is in the input list, the lowercased search query occurs in
its lowercased title or description, the selected category is `all` or
equals the course category, and the selected level is `all` or equals the
course level. -/
theorem coursesPage_filter_spec (courses : List Course) (q cat lvl : String) (c : Course) :
    c ∈ filteredCourses courses q cat lvl ↔
      c ∈ courses ∧
      (q.toLower.toList <:+: c.title.toLower.toList
        ∨ q.toLower.toList <:+: c.description.toLower.toList) ∧
      (cat = "all" ∨ c.category = cat) ∧
      (lvl = "all" ∨ c.level = lvl) := by
  simp [filteredCourses, List.mem_filter, jsIncludes, isSubstrList_iff, and_assoc]

/-- C8: the dashboard learning progress is a hardcoded display constant —
the aggregate stat reads 75 percent whenever at least one course is
enrolled and 0 percent otherwise, and every enrolled course's progress bar
receives the literal value 75 regardless of the course. -/
theorem dashboard_progress_hardcoded :
    (∀ n : Nat, 0 < n → progressDisplay n = "75%") ∧
    progressDisplay 0 = "0%" ∧
    (∀ c c2 : Course, enrolledCourseProgress c = 75 ∧
      enrolledCourseProgress c = enrolledCourseProgress c2) := by
  refine ⟨fun n hn => ?_, rfl, fun c c2 => ⟨rfl, rfl⟩⟩
  simp [progressDisplay, hn]

theorem dashboard_progress_hardcoded_witness :
    progressDisplay 1 = "75%" ∧ progressDisplay 0 = "0%" :=
  ⟨dashboard_progress_hardcoded.1 1 (by decide), dashboard_progress_hardcoded.2.1⟩

/-- C9: the home page's featured section is exactly the first three courses
of the API response in order (fewer when the list is shorter) — it is a
prefix of the list of the right length, and it commutes with any rewrite of
enrolled_count, so no popularity measure influences the selection. -/
theorem homepage_featured_first_three (l : List Course) (f : Course → Nat) :
    featuredCoursesOf l <+: l ∧
    (featuredCoursesOf l).length = min 3 l.length ∧
    featuredCoursesOf (l.map fun c => { c with enrolled_count := f c }) =
      (featuredCoursesOf l).map fun c => { c with enrolled_count := f c } := by
  refine ⟨List.take_prefix 3 l, List.length_take 3 l, ?_⟩
  simp [featuredCoursesOf, List.map_take]

/-- C10: in registration mode, a password differing from its confirmation
makes `handleSubmit` show an error and send no register request, so the
server state is untouched. -/
theorem authPage_confirm_mismatch (fd : FormData) (st : St) (newUid newTok : String)
    (hne : fd.password ≠ fd.confirmPassword) :
    handleSubmit false fd = .showError "Password dan konfirmasi password tidak sama" ∧
    (∀ e p n, handleSubmit false fd ≠ .registerReq e p n) ∧
    submitEffect st (handleSubmit false fd) newUid newTok = st := by
  have hs : handleSubmit false fd = .showError "Password dan konfirmasi password tidak sama" := by
    simp [handleSubmit, hne]
  refine ⟨hs, fun e p n => ?_, ?_⟩
  · rw [hs]; intro hcontra; exact SubmitAction.noConfusion hcontra
  · rw [hs]; rfl

theorem authPage_confirm_mismatch_witness :
    handleSubmit false ⟨"a@x.com", "abcdef", "Alice", "abcdeg"⟩
      = .showError "Password dan konfirmasi password tidak sama" ∧
    submitEffect stEmpty (handleSubmit false ⟨"a@x.com", "abcdef", "Alice", "abcdeg"⟩) "u1" "t1"
      = stEmpty := by
  have h := authPage_confirm_mismatch ⟨"a@x.com", "abcdef", "Alice", "abcdeg"⟩ stEmpty "u1" "t1"
    (by decide)
  exact ⟨h.1, h.2.2⟩

theorem find?_map_key {α : Type} (key : α → String) (g : α → α) (k : String)
    (hg : ∀ x, key (g x) = key x) (l : List α) :
    (l.map g).find? (fun x => key x == k) = (l.find? (fun x => key x == k)).map g := by
  induction l with
  | nil => rfl
  | cons a t ih =>
    by_cases hk : key a = k
    · have h1 : (key (g a) == k) = true := by simp [hg, hk]
      have h2 : (key a == k) = true := by simp [hk]
      simp [List.find?_cons, h1, h2]
    · have h1 : (key (g a) == k) = false := by simp [hg, hk]
      have h2 : (key a == k) = false := by simp [hk]
      simp [List.find?_cons, h1, h2, ih]

theorem bumpCourse_id (cid : String) (c2 : Course) : (bumpCourse cid c2).id = c2.id := by
  unfold bumpCourse; split <;> rfl

theorem enrollUser_id (uid cid : String) (u2 : User) : (enrollUser uid cid u2).id = u2.id := by
  unfold enrollUser; split <;> rfl

theorem resolveSession_users_eq (st st2 : St) (g : User → User)
    (hg : ∀ x, (g x).id = x.id) (hu : st2.users = st.users.map g)
    (hs : st2.sessions = st.sessions) (tok : Option String) :
    resolveSession st2 tok = (resolveSession st tok).map g := by
  cases tok with
  | none => rfl
  | some t =>
    show (st2.sessions.lookup t).bind (findUser st2)
        = ((st.sessions.lookup t).bind (findUser st)).map g
    rw [hs]
    cases st.sessions.lookup t with
    | none => rfl
    | some uid =>
      show findUser st2 uid = (findUser st uid).map g
      unfold findUser
      rw [hu]
      exact find?_map_key User.id g uid hg st.users

theorem purchase_enrolled (st : St) (tok : Option String) (u : User) (c : Course)
    (cid m pid : String) (now : Nat)
    (hres : resolveSession st tok = some u) (hc : findCourse st cid = some c)
    (hin : cid ∈ u.enrolled_courses) :
    purchase st tok cid m pid now = (Except.ok purchaseSuccessMsg, st) := by
  simp [purchase, hres, hc, hin]

theorem purchase_fresh (st : St) (tok : Option String) (u : User) (c : Course)
    (cid pid : String) (now : Nat)
    (hres : resolveSession st tok = some u) (hc : findCourse st cid = some c)
    (hnot : cid ∉ u.enrolled_courses) :
    purchase st tok cid "mock_payment" pid now =
      (Except.ok purchaseSuccessMsg,
        { st with
            payments := st.payments ++ [⟨pid, u.id, cid, c.price, "completed", "mock_payment", now⟩],
            courses := st.courses.map (bumpCourse cid),
            users := st.users.map (enrollUser u.id cid) }) := by
  simp [purchase, hres, hc, hnot]

theorem purchase_cases (st : St) (tok : Option String) (cid m pid : String) (now : Nat) :
    (resolveSession st tok = none ∧
      purchase st tok cid m pid now = (Except.error PError.Unauthorized, st)) ∨
    (∃ u, resolveSession st tok = some u ∧ findCourse st cid = none ∧
      purchase st tok cid m pid now = (Except.error PError.NotFound, st)) ∨
    (∃ u c, resolveSession st tok = some u ∧ findCourse st cid = some c ∧
      cid ∈ u.enrolled_courses ∧
      purchase st tok cid m pid now = (Except.ok purchaseSuccessMsg, st)) ∨
    (∃ u c, resolveSession st tok = some u ∧ findCourse st cid = some c ∧
      cid ∉ u.enrolled_courses ∧ m ≠ "mock_payment" ∧
      purchase st tok cid m pid now = (Except.error PError.NotImplemented, st)) ∨
    (∃ u c, resolveSession st tok = some u ∧ findCourse st cid = some c ∧
      cid ∉ u.enrolled_courses ∧ m = "mock_payment" ∧
      purchase st tok cid m pid now =
        (Except.ok purchaseSuccessMsg,
          { st with
              payments := st.payments ++ [⟨pid, u.id, cid, c.price, "completed", m, now⟩],
              courses := st.courses.map (bumpCourse cid),
              users := st.users.map (enrollUser u.id cid) })) := by
  cases hres : resolveSession st tok with
  | none => exact Or.inl ⟨rfl, by simp [purchase, hres]⟩
  | some u =>
    cases hc : findCourse st cid with
    | none => exact Or.inr (Or.inl ⟨u, rfl, rfl, by simp [purchase, hres, hc]⟩)
    | some c =>
      by_cases hin : cid ∈ u.enrolled_courses
      · exact Or.inr (Or.inr (Or.inl ⟨u, c, rfl, rfl, hin,
          purchase_enrolled st tok u c cid m pid now hres hc hin⟩))
      · by_cases hm : m = "mock_payment"
        · subst hm
          exact Or.inr (Or.inr (Or.inr (Or.inr ⟨u, c, rfl, rfl, hin, rfl,
            purchase_fresh st tok u c cid pid now hres hc hin⟩)))
        · exact Or.inr (Or.inr (Or.inr (Or.inl ⟨u, c, rfl, rfl, hin, hm,
            by simp [purchase, hres, hc, hin, hm]⟩)))


theorem courseEnrolledCount_eq (st2 st : St) (cid : String) (c : Course)
    (hc : findCourse st cid = some c)
    (h2 : st2.courses = st.courses.map (bumpCourse cid)) :
    courseEnrolledCount st2 cid = courseEnrolledCount st cid + 1 := by
  have hcf : st.courses.find? (fun x => x.id == cid) = some c := hc
  have hcid : (c.id == cid) = true := by
    have h3 := List.find?_some hcf
    simpa using h3
  have hmap : findCourse st2 cid = (findCourse st cid).map (bumpCourse cid) := by
    unfold findCourse
    rw [h2]
    exact find?_map_key Course.id (bumpCourse cid) cid (bumpCourse_id cid) st.courses
  unfold courseEnrolledCount
  rw [hmap, hc]
  simp [bumpCourse, hcid]

/-- C1: purchase is idempotent — with a valid session whose user already
holds the course, a purchase call returns success and changes nothing; and
purchasing a not-yet-owned course twice in the same session succeeds,
appends exactly one Payment, increments the course's enrolled_count exactly
once, and the second call leaves the state of the first untouched. -/
theorem purchase_idempotent (st : St) (tok : Option String) (u : User) (c : Course)
    (cid m pid pid2 : String) (now now2 : Nat)
    (hres : resolveSession st tok = some u) (hc : findCourse st cid = some c) :
    (cid ∈ u.enrolled_courses →
      purchase st tok cid m pid now = (Except.ok purchaseSuccessMsg, st)) ∧
    (cid ∉ u.enrolled_courses →
      (purchase st tok cid "mock_payment" pid now).1 = Except.ok purchaseSuccessMsg ∧
      ((purchase st tok cid "mock_payment" pid now).2).payments
        = st.payments ++ [⟨pid, u.id, cid, c.price, "completed", "mock_payment", now⟩] ∧
      courseEnrolledCount ((purchase st tok cid "mock_payment" pid now).2) cid
        = courseEnrolledCount st cid + 1 ∧
      purchase ((purchase st tok cid "mock_payment" pid now).2) tok cid "mock_payment" pid2 now2
        = (Except.ok purchaseSuccessMsg, (purchase st tok cid "mock_payment" pid now).2)) := by
  constructor
  · intro hin
    exact purchase_enrolled st tok u c cid m pid now hres hc hin
  · intro hnot
    have hp := purchase_fresh st tok u c cid pid now hres hc hnot
    rw [hp]
    refine ⟨rfl, rfl, courseEnrolledCount_eq _ st cid c hc rfl, ?_⟩
    apply purchase_enrolled _ tok (enrollUser u.id cid u) (bumpCourse cid c) cid
      "mock_payment" pid2 now2
    · have h4 := resolveSession_users_eq st
        ⟨st.users.map (enrollUser u.id cid), st.courses.map (bumpCourse cid),
          st.payments ++ [⟨pid, u.id, cid, c.price, "completed", "mock_payment", now⟩],
          st.sessions⟩
        (enrollUser u.id cid) (enrollUser_id u.id cid) rfl rfl tok
      rw [h4, hres]
      rfl
    · have hcf : st.courses.find? (fun x => x.id == cid) = some c := hc
      have h5 := find?_map_key Course.id (bumpCourse cid) cid (bumpCourse_id cid) st.courses
      show (st.courses.map (bumpCourse cid)).find? (fun x => x.id == cid)
          = some (bumpCourse cid c)
      rw [h5, hcf]
      rfl
    · simp [enrollUser]

theorem purchase_idempotent_witness :
    purchase stEnr (some "t1") "c1" "gopay" "p9" 7 = (Except.ok purchaseSuccessMsg, stEnr) ∧
    (purchase stFresh (some "t1") "c1" "mock_payment" "p9" 7).1 = Except.ok purchaseSuccessMsg := by
  constructor
  · exact (purchase_idempotent stEnr (some "t1") userEnr courseEnr "c1" "gopay" "p9" "p8" 7 8
      (by rfl) (by rfl)).1 (by decide)
  · exact ((purchase_idempotent stFresh (some "t1") userFresh courseFresh "c1" "mock_payment"
      "p9" "p8" 7 8 (by rfl) (by rfl)).2 (by decide)).1

/-- C2: purchase failure is atomic — every failing purchase call leaves the
state exactly as it was, with Unauthorized on a missing or invalid session,
NotFound on an unknown course id, and NotImplemented on a non-mock payment
method. -/
theorem purchase_failure_atomic (st : St) (tok : Option String) (cid m pid : String) (now : Nat) :
    (∀ e st2, purchase st tok cid m pid now = (Except.error e, st2) → st2 = st) ∧
    (resolveSession st tok = none →
      purchase st tok cid m pid now = (Except.error PError.Unauthorized, st)) ∧
    (∀ u, resolveSession st tok = some u → findCourse st cid = none →
      purchase st tok cid m pid now = (Except.error PError.NotFound, st)) ∧
    (∀ u c, resolveSession st tok = some u → findCourse st cid = some c →
      cid ∉ u.enrolled_courses → m ≠ "mock_payment" →
      purchase st tok cid m pid now = (Except.error PError.NotImplemented, st)) := by
  refine ⟨?_, ?_, ?_, ?_⟩
  · intro e st2 h
    rcases purchase_cases st tok cid m pid now with
      ⟨_, hp⟩ | ⟨u, _, _, hp⟩ | ⟨u, c, _, _, _, hp⟩ | ⟨u, c, _, _, _, _, hp⟩ | ⟨u, c, _, _, _, _, hp⟩ <;>
      rw [hp] at h
    · injection h with h1 h2; exact h2.symm
    · injection h with h1 h2; exact h2.symm
    · injection h with h1 h2; exact Except.noConfusion h1
    · injection h with h1 h2; exact h2.symm
    · injection h with h1 h2; exact Except.noConfusion h1
  · intro hres; simp [purchase, hres]
  · intro u hres hc; simp [purchase, hres, hc]
  · intro u c hres hc hin hm; simp [purchase, hres, hc, hin, hm]

theorem purchase_failure_atomic_witness :
    purchase stFresh none "c1" "mock_payment" "p9" 7
      = (Except.error PError.Unauthorized, stFresh) ∧
    purchase stFresh (some "t1") "nope" "mock_payment" "p9" 7
      = (Except.error PError.NotFound, stFresh) ∧
    purchase stFresh (some "t1") "c1" "gopay" "p9" 7
      = (Except.error PError.NotImplemented, stFresh) := by
  refine ⟨?_, ?_, ?_⟩
  · exact (purchase_failure_atomic stFresh none "c1" "mock_payment" "p9" 7).2.1 rfl
  · exact (purchase_failure_atomic stFresh (some "t1") "nope" "mock_payment" "p9" 7).2.2.1
      userFresh (by rfl) (by rfl)
  · exact (purchase_failure_atomic stFresh (some "t1") "c1" "gopay" "p9" 7).2.2.2
      userFresh courseFresh (by rfl) (by rfl) (by decide) (by decide)

theorem countInvariantL_bump (courses : List Course) (payments : List Payment)
    (cid : String) (p : Payment)
    (h1 : p.status = "completed") (h2 : p.course_id = cid)
    (hinv : countInvariantL courses payments) :
    countInvariantL (courses.map (bumpCourse cid)) (payments ++ [p]) := by
  intro c2 hc2
  obtain ⟨c3, hc3, rfl⟩ := List.mem_map.mp hc2
  by_cases h : c3.id = cid
  · have hb : bumpCourse cid c3 = { c3 with enrolled_count := c3.enrolled_count + 1 } := by
      simp [bumpCourse, h]
    have hp1 : completedFor c3.id p = true := by
      simp [completedFor, h1, h2, h]
    rw [hb, List.filter_append, List.length_append]
    show c3.enrolled_count + 1
        = (payments.filter (completedFor c3.id)).length + ([p].filter (completedFor c3.id)).length
    rw [hinv c3 hc3]
    simp [hp1]
  · have hb : bumpCourse cid c3 = c3 := by
      simp [bumpCourse, h]
    have hp1 : completedFor c3.id p = false := by
      simp [completedFor, h1, h2]
      exact fun hcontra => h hcontra.symm
    rw [hb, List.filter_append, List.length_append]
    rw [hinv c3 hc3]
    simp [hp1]

theorem countInvariant_purchase (st : St) (tok : Option String) (cid m pid : String) (now : Nat)
    (hinv : countInvariant st) : countInvariant (purchase st tok cid m pid now).2 := by
  rcases purchase_cases st tok cid m pid now with
    ⟨_, hp⟩ | ⟨u, _, _, hp⟩ | ⟨u, c, _, _, _, hp⟩ | ⟨u, c, _, _, _, _, hp⟩ | ⟨u, c, _, _, _, _, hp⟩ <;>
    rw [hp]
  · exact hinv
  · exact hinv
  · exact hinv
  · exact hinv
  · exact countInvariantL_bump st.courses st.payments cid _ rfl rfl hinv

theorem grantBadge_extends (bs : List String) (b : String) : bs <+: grantBadge bs b := by
  unfold grantBadge
  split
  · exact List.prefix_refl bs
  · exact List.prefix_append bs [b]

theorem badgesAfterPurchase_extends (u : User) : u.badges <+: badgesAfterPurchase u := by
  unfold badgesAfterPurchase
  split
  · exact (grantBadge_extends _ _).trans (grantBadge_extends _ _)
  · exact grantBadge_extends _ _

theorem enrollUser_grow (uid cid : String) (u2 : User) :
    u2.enrolled_courses <+: (enrollUser uid cid u2).enrolled_courses ∧
    u2.badges <+: (enrollUser uid cid u2).badges := by
  unfold enrollUser
  split
  · exact ⟨List.prefix_append _ _, badgesAfterPurchase_extends u2⟩
  · exact ⟨List.prefix_refl _, List.prefix_refl _⟩

theorem bumpCourse_le (cid : String) (c2 : Course) :
    c2.enrolled_count ≤ (bumpCourse cid c2).enrolled_count := by
  unfold bumpCourse
  split
  · exact Nat.le_succ _
  · exact Nat.le_refl _

theorem usersGrow_of_users_extend (st st2 : St) (h : st.users <+: st2.users) : usersGrow st st2 :=
  fun u2 hm => ⟨u2, h.subset hm, rfl, List.prefix_refl _, List.prefix_refl _⟩

theorem coursesGrow_of_eq (st st2 : St) (h : st2.courses = st.courses) : coursesGrow st st2 :=
  fun c2 hm => ⟨c2, by rw [h]; exact hm, rfl, Nat.le_refl _⟩

theorem usersGrow_purchase (st : St) (tok : Option String) (cid m pid : String) (now : Nat) :
    usersGrow st (purchase st tok cid m pid now).2 := by
  rcases purchase_cases st tok cid m pid now with
    ⟨_, hp⟩ | ⟨u, _, _, hp⟩ | ⟨u, c, _, _, _, hp⟩ | ⟨u, c, _, _, _, _, hp⟩ | ⟨u, c, _, _, _, _, hp⟩ <;>
    rw [hp]
  · exact usersGrow_of_users_extend st st (List.prefix_refl _)
  · exact usersGrow_of_users_extend st st (List.prefix_refl _)
  · exact usersGrow_of_users_extend st st (List.prefix_refl _)
  · exact usersGrow_of_users_extend st st (List.prefix_refl _)
  · intro u2 hm
    exact ⟨enrollUser u.id cid u2, List.mem_map_of_mem _ hm, enrollUser_id u.id cid u2,
      (enrollUser_grow u.id cid u2).1, (enrollUser_grow u.id cid u2).2⟩

theorem coursesGrow_purchase (st : St) (tok : Option String) (cid m pid : String) (now : Nat) :
    coursesGrow st (purchase st tok cid m pid now).2 := by
  rcases purchase_cases st tok cid m pid now with
    ⟨_, hp⟩ | ⟨u, _, _, hp⟩ | ⟨u, c, _, _, _, hp⟩ | ⟨u, c, _, _, _, _, hp⟩ | ⟨u, c, _, _, _, _, hp⟩ <;>
    rw [hp]
  · exact coursesGrow_of_eq st st rfl
  · exact coursesGrow_of_eq st st rfl
  · exact coursesGrow_of_eq st st rfl
  · exact coursesGrow_of_eq st st rfl
  · intro c2 hm
    exact ⟨bumpCourse cid c2, List.mem_map_of_mem _ hm, bumpCourse_id cid c2, bumpCourse_le cid c2⟩

theorem register_effects (st : St) (e p n uid tk : String) :
    (register st e p n uid tk).2.courses = st.courses ∧
    (register st e p n uid tk).2.payments = st.payments ∧
    st.users <+: (register st e p n uid tk).2.users := by
  unfold register
  split
  · exact ⟨rfl, rfl, List.prefix_refl _⟩
  · split
    · exact ⟨rfl, rfl, List.prefix_refl _⟩
    · exact ⟨rfl, rfl, List.prefix_append _ _⟩

theorem login_effects (st : St) (e p tk : String) :
    (login st e p tk).2.courses = st.courses ∧
    (login st e p tk).2.payments = st.payments ∧
    (login st e p tk).2.users = st.users := by
  unfold login
  split
  · exact ⟨rfl, rfl, rfl⟩
  · split
    · exact ⟨rfl, rfl, rfl⟩
    · exact ⟨rfl, rfl, rfl⟩

theorem getDashboard_state (st : St) (tok : Option String) : (getDashboard st tok).2 = st := by
  rcases hres : resolveSession st tok with _ | u <;> simp [getDashboard, hres]

/-- C3: state invariants — assuming every course's enrolled_count equals the
number of completed payments referencing it, each modelled operation
(purchase, register, login, getDashboard) preserves that equality; and
under every operation users' enrolled_courses and badges lists only extend
(never lose an element) and courses keep their id with a non-decreasing
enrolled_count. -/
theorem state_invariants_preserved (st : St) (tok tok2 : Option String)
    (cid m pid e p n uid tk e2 p2 tk2 : String) (now : Nat)
    (hinv : countInvariant st) :
    (countInvariant (purchase st tok cid m pid now).2 ∧
      countInvariant (register st e p n uid tk).2 ∧
      countInvariant (login st e2 p2 tk2).2 ∧
      countInvariant (getDashboard st tok2).2) ∧
    (usersGrow st (purchase st tok cid m pid now).2 ∧
      usersGrow st (register st e p n uid tk).2 ∧
      usersGrow st (login st e2 p2 tk2).2 ∧
      usersGrow st (getDashboard st tok2).2) ∧
    (coursesGrow st (purchase st tok cid m pid now).2 ∧
      coursesGrow st (register st e p n uid tk).2 ∧
      coursesGrow st (login st e2 p2 tk2).2 ∧
      coursesGrow st (getDashboard st tok2).2) := by
  obtain ⟨hrc, hrp, hru⟩ := register_effects st e p n uid tk
  obtain ⟨hlc, hlp, hlu⟩ := login_effects st e2 p2 tk2
  have hd := getDashboard_state st tok2
  refine ⟨⟨countInvariant_purchase st tok cid m pid now hinv, ?_, ?_, ?_⟩,
    ⟨usersGrow_purchase st tok cid m pid now, usersGrow_of_users_extend st _ hru,
      usersGrow_of_users_extend st _ (by rw [hlu]), usersGrow_of_users_extend st _ (by rw [hd])⟩,
    ⟨coursesGrow_purchase st tok cid m pid now, coursesGrow_of_eq st _ hrc,
      coursesGrow_of_eq st _ hlc, coursesGrow_of_eq st _ (by rw [hd])⟩⟩
  · unfold countInvariant
    rw [hrc, hrp]
    exact hinv
  · unfold countInvariant
    rw [hlc, hlp]
    exact hinv
  · unfold countInvariant
    rw [hd]
    exact hinv

theorem state_invariants_preserved_witness :
    countInvariant (purchase stFresh (some "t1") "c1" "mock_payment" "p9" 7).2 ∧
    usersGrow stFresh (purchase stFresh (some "t1") "c1" "mock_payment" "p9" 7).2 ∧
    coursesGrow stFresh (purchase stFresh (some "t1") "c1" "mock_payment" "p9" 7).2 := by
  have h := state_invariants_preserved stFresh (some "t1") (some "t1") "c1" "mock_payment" "p9"
    "b@x.com" "123456" "Bob" "u2" "t2" "a@x.com" "secret1" "t3" 7
    (by unfold countInvariant countInvariantL; decide)
  exact ⟨h.1.1, h.2.1.1, h.2.2.1⟩

/-- C4 counterexample: a purchase call with paymentMethod `gopay` made by a
user already enrolled in the course returns success (the idempotence check
of step 3 precedes the payment-method check of step 4), so not every
non-mock purchase call fails with NotImplemented, and mock_payment is not
the only method with which a purchase call can return success. -/
theorem purchase_nonmock_counterexample :
    (purchase stEnr (some "t1") "c1" "gopay" "p9" 7).1 = Except.ok purchaseSuccessMsg ∧
    (Except.ok purchaseSuccessMsg : Except PError String) ≠ Except.error PError.NotImplemented := by
  constructor
  · exact congrArg Prod.fst
      (purchase_enrolled stEnr (some "t1") userEnr courseEnr "c1" "gopay" "p9" 7 rfl rfl
        (by decide))
  · intro h
    exact Except.noConfusion h

/-- C4 (amended): for a valid session, an existing course, and a user not
already enrolled in it, a purchase call with any paymentMethod other than
mock_payment fails with NotImplemented and changes nothing; and such a
fresh purchase can only return success when the method is mock_payment
(an already-enrolled user's call returns success for any method, as the
idempotence check runs first). -/
theorem purchase_nonmock_rejected (st : St) (tok : Option String) (u : User) (c : Course)
    (cid m pid : String) (now : Nat)
    (hres : resolveSession st tok = some u) (hc : findCourse st cid = some c)
    (hnot : cid ∉ u.enrolled_courses) :
    (m ≠ "mock_payment" →
      purchase st tok cid m pid now = (Except.error PError.NotImplemented, st)) ∧
    (∀ r st2, purchase st tok cid m pid now = (Except.ok r, st2) → m = "mock_payment") := by
  constructor
  · intro hm
    simp [purchase, hres, hc, hnot, hm]
  · intro r st2 h
    by_cases hm : m = "mock_payment"
    · exact hm
    · rw [(by simp [purchase, hres, hc, hnot, hm] :
        purchase st tok cid m pid now = (Except.error PError.NotImplemented, st))] at h
      injection h with h1 _
      exact Except.noConfusion h1

theorem purchase_nonmock_rejected_witness :
    purchase stFresh (some "t1") "c1" "ovo" "p9" 7
      = (Except.error PError.NotImplemented, stFresh) :=
  (purchase_nonmock_rejected stFresh (some "t1") userFresh courseFresh "c1" "ovo" "p9" 7
    rfl rfl (by decide)).1 (by decide)

/-- C5: register fails with InvalidInput exactly when the password is
shorter than 6 characters or the email is malformed; every such failure
leaves the store unchanged; a length-5 password yields InvalidInput and
creates no user; a length-6 password with a well-formed unused email
succeeds and creates exactly one new user. -/
theorem register_invalid_input_iff (st : St) (e p n uid tk : String) :
    ((register st e p n uid tk).1 = Except.error PError.InvalidInput ↔
      (p.length < 6 ∨ validEmail e = false)) ∧
    ((p.length < 6 ∨ validEmail e = false) → (register st e p n uid tk).2 = st) ∧
    (p.length = 5 →
      (register st e p n uid tk).1 = Except.error PError.InvalidInput ∧
      (register st e p n uid tk).2.users = st.users) ∧
    (p.length = 6 → validEmail e = true → (∀ u2 ∈ st.users, u2.email ≠ e) →
      (register st e p n uid tk).1 = Except.ok (tk, uid) ∧
      (register st e p n uid tk).2.users
        = st.users ++ [⟨uid, e, hashPwd p, n, "user", [], []⟩]) := by
  by_cases hbad : p.length < 6 ∨ validEmail e = false
  · have hcond : (decide (p.length < 6) || !(validEmail e)) = true := by
      rcases hbad with hb | hb
      · simp [hb]
      · simp [hb]
    have hr : register st e p n uid tk = (Except.error PError.InvalidInput, st) := by
      simp [register, hcond]
    refine ⟨⟨fun _ => hbad, fun _ => by rw [hr]⟩, fun _ => by rw [hr],
      fun _ => ⟨by rw [hr], by rw [hr]⟩, ?_⟩
    intro h6 hval _
    exfalso
    rcases hbad with hb | hb
    · rw [h6] at hb
      exact absurd hb (by decide)
    · rw [hval] at hb
      exact Bool.noConfusion hb
  · have h6 : ¬ p.length < 6 := fun h => hbad (Or.inl h)
    have hv : validEmail e = true := by
      cases hve : validEmail e
      · exact absurd (Or.inr hve) hbad
      · rfl
    have hcond : (decide (p.length < 6) || !(validEmail e)) = false := by
      simp [h6, hv]
    by_cases hdup : st.users.any (fun u2 => u2.email == e) = true
    · have hr : register st e p n uid tk = (Except.error PError.Conflict, st) := by
        simp [register, hcond, hdup]
      refine ⟨⟨?_, fun hf => absurd hf hbad⟩, fun hf => absurd hf hbad, ?_, ?_⟩
      · intro hcontra
        rw [hr] at hcontra
        injection hcontra with h1
        exact PError.noConfusion h1
      · intro h5
        exact absurd (by rw [h5]; decide) h6
      · intro _ _ hnone
        obtain ⟨u2, hu2, he⟩ := List.any_eq_true.mp hdup
        exact absurd (by simpa using he) (hnone u2 hu2)
    · have hdupf : st.users.any (fun u2 => u2.email == e) = false :=
        Bool.eq_false_iff.mpr hdup
      have hr : register st e p n uid tk
          = (Except.ok (tk, uid),
              { st with users := st.users ++ [⟨uid, e, hashPwd p, n, "user", [], []⟩],
                        sessions := st.sessions ++ [(tk, uid)] }) := by
        simp [register, hcond, hdupf]
      refine ⟨⟨?_, fun hf => absurd hf hbad⟩, fun hf => absurd hf hbad, ?_, ?_⟩
      · intro hcontra
        rw [hr] at hcontra
        exact Except.noConfusion hcontra
      · intro h5
        exact absurd (by rw [h5]; decide) h6
      · intro _ _ _
        exact ⟨by rw [hr], by rw [hr]⟩

theorem register_invalid_input_iff_witness :
    (register stEmpty "a@x.com" "12345" "Alice" "u1" "t1").1
      = Except.error PError.InvalidInput ∧
    (register stEmpty "a@x.com" "123456" "Alice" "u1" "t1").1 = Except.ok ("t1", "u1") := by
  constructor
  · exact ((register_invalid_input_iff stEmpty "a@x.com" "12345" "Alice" "u1" "t1").2.2.1
      (by decide)).1
  · exact ((register_invalid_input_iff stEmpty "a@x.com" "123456" "Alice" "u1" "t1").2.2.2
      (by decide) (by decide) (by decide)).1

/-- C7: getDashboard is a pure read — for a valid session it returns the
session's user, the full Course objects obtained by joining the user's
enrolled_courses ids against the catalog, and the user's payments as a
permutation of their stored payment records sorted by created_at
descending, while the state comes back unchanged. -/
theorem getDashboard_pure_read (st : St) (tok : Option String) (u : User)
    (hres : resolveSession st tok = some u) :
    ∃ d, getDashboard st tok = (Except.ok d, st) ∧
      d.user = u ∧
      d.enrolled_courses = u.enrolled_courses.filterMap (findCourse st) ∧
      List.Perm d.payment_history (st.payments.filter (fun q => q.user_id == u.id)) ∧
      List.Sorted paymentDesc d.payment_history := by
  refine ⟨⟨u, u.enrolled_courses.filterMap (findCourse st),
      List.insertionSort paymentDesc (st.payments.filter (fun q => q.user_id == u.id))⟩,
    ?_, rfl, rfl, List.perm_insertionSort paymentDesc _, List.sorted_insertionSort paymentDesc _⟩
  simp [getDashboard, hres]

theorem getDashboard_pure_read_witness :
    ∃ d, getDashboard stDash (some "t1") = (Except.ok d, stDash) ∧
      d.user = userEnr ∧
      d.enrolled_courses = userEnr.enrolled_courses.filterMap (findCourse stDash) ∧
      List.Perm d.payment_history (stDash.payments.filter (fun q => q.user_id == userEnr.id)) ∧
      List.Sorted paymentDesc d.payment_history :=
  getDashboard_pure_read stDash (some "t1") userEnr (by rfl)
